import Mathlib

set_option maxRecDepth 10000

/-!
Shallow embedding of the request-response cycle of the Flask application in
app/flask_app.py, together with the pieces of the Python standard library it
calls (posixpath.normpath, posixpath.join, posixpath.abspath).  Machine
strings are modelled as Lean strings; character-level path processing works
on the underlying character lists.
-/

namespace FlaskApp

/-- Substring containment: the character data of `pat` occurs as a contiguous
infix of the character data of `s`. -/
def strContains (s pat : String) : Prop := pat.data <:+: s.data

instance (s pat : String) : Decidable (strContains s pat) :=
  inferInstanceAs (Decidable (pat.data <:+: s.data))

/-- Number of leading separators kept by posixpath.normpath: 2 when the path
starts with exactly two slashes, 1 for any other leading slash, else 0. -/
def initialSlashes (p : List Char) : Nat :=
  if p.head? = some '/' then
    if p.tail.head? = some '/' ∧ p.tail.tail.head? ≠ some '/' then 2 else 1
  else 0

/-- One iteration of the component loop of posixpath.normpath: skip empty and
dot components, append any component that is not dot-dot (or a dot-dot that
cannot cancel), otherwise pop the last accumulated component. -/
def normStep (slashes : Nat) (acc : List (List Char)) (comp : List Char) :
    List (List Char) :=
  if comp = [] ∨ comp = ['.'] then acc
  else if comp ≠ ['.', '.'] ∨ (slashes = 0 ∧ acc = []) ∨
      (acc ≠ [] ∧ acc.getLast? = some ['.', '.']) then
    acc ++ [comp]
  else if acc ≠ [] then acc.dropLast
  else acc

/-- posixpath.normpath on the character list of a path: empty input gives dot,
otherwise the retained leading slashes are glued to the separator-joined
surviving components, and an empty outcome again gives dot. -/
def normpathChars (p : List Char) : List Char :=
  if p = [] then ['.']
  else if List.replicate (initialSlashes p) '/' ++
      List.intercalate ['/'] ((p.splitOn '/').foldl (normStep (initialSlashes p)) []) = [] then
    ['.']
  else
    List.replicate (initialSlashes p) '/' ++
      List.intercalate ['/'] ((p.splitOn '/').foldl (normStep (initialSlashes p)) [])

/-- posixpath.normpath. -/
def normpath (p : String) : String := String.mk (normpathChars p.data)

/-- posixpath.isabs: the path starts with a slash. -/
def isabs (p : String) : Bool := p.data.head? = some '/'

/-- posixpath.join restricted to two arguments, as called by abspath. -/
def posixJoin (a b : String) : String :=
  if isabs b then b
  else if a = "" ∨ a.data.getLast? = some '/' then a ++ b
  else a ++ "/" ++ b

/-- posixpath.abspath, with the ambient current working directory (the value
os.getcwd() would return) passed explicitly. -/
def abspath (cwd p : String) : String :=
  if isabs p then normpath p else normpath (posixJoin cwd p)

/-- An inbound HTTP request as the framework hands it to the application. -/
structure Request where
  method : String
  path : String
  headers : List (String × String)

/-- Ambient process and application context at the moment a request is
handled: the fixed application name set at startup, and the current working
directory of the server process at request time. -/
structure Env where
  appName : String
  cwd : String

/-- The per-request context bag g; its path attribute is absent until the
before-request hook assigns it. -/
structure G where
  path : Option String

/-- werkzeug header lookup: case-insensitive on the header name, returning
the first matching value, or none when the header is absent. -/
def headersGet (headers : List (String × String)) (key : String) :
    Option String :=
  (headers.find? fun kv =>
    kv.fst.data.map Char.toLower == key.data.map Char.toLower).map Prod.snd

/-- The before-request hook app_path: g.path = os.path.abspath(os.getcwd()). -/
def app_path (env : Env) (g : G) : G :=
  { g with path := some (abspath env.cwd env.cwd) }

/-- Python f-string rendering of a possibly absent string: None renders as
the four characters None. -/
def pyStr : Option String → String
  | none => "None"
  | some s => s

/-- The view function index: reads the Host header, the application name and
g.path, and returns the formatted body together with status 202.  Reading
g.path when the hook never ran would raise AttributeError in Python; that
outcome is modelled as none. -/
def index (env : Env) (req : Request) (g : G) : Option (String × Nat) :=
  let host := headersGet req.headers "Host"
  let appname := env.appName
  match g.path with
  | none => none
  | some gpath =>
    some ("<h1>The host for this page is " ++ pyStr host ++
      "</h1>\n            <h2>The name of this application is " ++ appname ++
      "</h2>\n            <h3>The path of this application on the user\x27s device is " ++
      gpath ++ "</h3>", 202)

/-- Outcome of one trip through the dispatcher: the view produced a body and
a status, or routing did not match and the framework default answers, or an
unhandled exception escaped. -/
inductive RouteResult where
  | handled : String → Nat → RouteResult
  | unmatched : RouteResult
  | failed : RouteResult
  deriving DecidableEq

/-- One full request-response cycle: the before-request hook runs first for
every inbound request, then routing invokes the view only for the root path
under the methods the route accepts. -/
def full_dispatch (env : Env) (req : Request) : RouteResult :=
  let g := app_path env { path := none }
  if req.path = "/" ∧ (req.method = "GET" ∨ req.method = "HEAD") then
    match index env req g with
    | some (body, status) => .handled body status
    | none => .failed
  else .unmatched

/-- Status code of a dispatch outcome, when the view answered. -/
def statusOf : RouteResult → Option Nat
  | .handled _ s => some s
  | _ => none

/-- Body of a dispatch outcome, when the view answered. -/
def bodyOf : RouteResult → Option String
  | .handled b _ => some b
  | _ => none

/-- The ambient state the view can see: application context, the request and
the per-request bag g. -/
structure Ctx where
  env : Env
  req : Request
  g : G

/-- The view as a transformer of the ambient state: the Python function body
contains no assignment to the request, the application or g, only reads, so
the state component passes through unchanged while the response is built. -/
def indexCtx (c : Ctx) : Option (String × Nat) × Ctx :=
  (index c.env c.req c.g, c)

/-- A clean path component: nonempty, not a dot entry, no separator inside. -/
def CleanComp (c : List Char) : Prop :=
  c ≠ [] ∧ c ≠ ['.'] ∧ c ≠ ['.', '.'] ∧ '/' ∉ c

instance (c : List Char) : Decidable (CleanComp c) :=
  inferInstanceAs (Decidable (c ≠ [] ∧ c ≠ ['.'] ∧ c ≠ ['.', '.'] ∧ '/' ∉ c))

/-- What POSIX getcwd guarantees about its result: an absolute pathname with
no dot, dot-dot or empty components; either the root itself or a slash
followed by slash-separated clean components. -/
def CanonicalCwd (p : String) : Prop :=
  p = "/" ∨ ∃ comps : List (List Char), comps ≠ [] ∧ (∀ c ∈ comps, CleanComp c) ∧
    p.data = '/' :: List.intercalate ['/'] comps

theorem strContains_of_eq (s a pat b : String) (hs : s = a ++ (pat ++ b)) :
    strContains s pat := by
  rw [strContains, hs]
  exact ⟨a.data, b.data, by simp⟩

theorem foldl_normStep_clean (s : Nat) (comps : List (List Char)) :
    ∀ acc : List (List Char), (∀ c ∈ comps, CleanComp c) →
      comps.foldl (normStep s) acc = acc ++ comps := by
  induction comps with
  | nil => intro acc _; simp
  | cons c cs ih =>
    intro acc hc
    obtain ⟨h1, h2, h3, -⟩ := hc c (List.mem_cons_self c cs)
    have hstep : normStep s acc c = acc ++ [c] := by
      unfold normStep
      rw [if_neg (by simp [h1, h2]), if_pos (Or.inl h3)]
    rw [List.foldl_cons, hstep, ih _ fun d hd => hc d (List.mem_cons_of_mem _ hd)]
    simp

theorem splitOn_canonical (comps : List (List Char)) (hne : comps ≠ [])
    (hcl : ∀ c ∈ comps, CleanComp c) :
    ('/' :: List.intercalate ['/'] comps).splitOn '/' = [] :: comps := by
  have hx : ∀ l ∈ comps, '/' ∉ l := fun l hl => (hcl l hl).2.2.2
  have h2 := List.splitOn_intercalate comps '/' hx hne
  simp only [List.splitOn] at h2 ⊢
  rw [List.splitOnP_cons]
  simp only [beq_self_eq_true, if_true]
  rw [h2]

theorem intercalate_cons_eq (c : List Char) (cs : List (List Char)) :
    ∃ t, List.intercalate ['/'] (c :: cs) = c ++ t := by
  cases cs with
  | nil => exact ⟨[], by simp [List.intercalate]⟩
  | cons d ds =>
    exact ⟨'/' :: List.intercalate ['/'] (d :: ds), by simp [List.intercalate]⟩

theorem initialSlashes_canonical (c : List Char) (cs : List (List Char)) (hc : CleanComp c) :
    initialSlashes ('/' :: List.intercalate ['/'] (c :: cs)) = 1 := by
  obtain ⟨t, ht⟩ := intercalate_cons_eq c cs
  rw [ht]
  obtain ⟨hne, -, -, hsl⟩ := hc
  cases c with
  | nil => exact absurd rfl hne
  | cons ch ct =>
    have hch : ¬ch = '/' := fun h => hsl (h ▸ List.mem_cons_self _ _)
    simp [initialSlashes, hch]

theorem normpathChars_canonical (comps : List (List Char)) (hne : comps ≠ [])
    (hcl : ∀ c ∈ comps, CleanComp c) :
    normpathChars ('/' :: List.intercalate ['/'] comps) = '/' :: List.intercalate ['/'] comps := by
  obtain ⟨c, cs, rfl⟩ : ∃ c cs, comps = c :: cs := by
    cases comps with
    | nil => exact absurd rfl hne
    | cons c cs => exact ⟨c, cs, rfl⟩
  have h1 := initialSlashes_canonical c cs (hcl c (List.mem_cons_self c cs))
  have h2 := splitOn_canonical (c :: cs) hne hcl
  have h0 : normStep 1 [] [] = [] := by decide
  unfold normpathChars
  rw [if_neg (by simp), h1, h2, List.foldl_cons, h0,
    foldl_normStep_clean 1 (c :: cs) [] hcl]
  simp

theorem abspath_cwd_id (p : String) (h : CanonicalCwd p) : abspath p p = p := by
  rcases h with h | ⟨comps, hne, hcl, hdata⟩
  · subst h
    rfl
  · have habs : isabs p = true := by simp [isabs, hdata]
    unfold abspath
    rw [if_pos habs]
    unfold normpath
    rw [hdata, normpathChars_canonical comps hne hcl, ← hdata]

theorem canonicalCwd_root : CanonicalCwd "/root" :=
  Or.inr ⟨[['r', 'o', 'o', 't']], by decide, by decide, by decide⟩

theorem dispatch_body (env : Env) (req : Request)
    (hpath : req.path = "/") (hmethod : req.method = "GET") :
    full_dispatch env req = RouteResult.handled
      ("<h1>The host for this page is " ++ pyStr (headersGet req.headers "Host") ++
        "</h1>\n            <h2>The name of this application is " ++ env.appName ++
        "</h2>\n            <h3>The path of this application on the user\x27s device is " ++
        abspath env.cwd env.cwd ++ "</h3>") 202 := by
  simp [full_dispatch, hpath, hmethod, app_path, index]

/-- C1: for every GET request to the root path, the status code the handler
returns is 202, and in particular it is never 200. -/
theorem get_root_returns_202 (env : Env) (req : Request)
    (hpath : req.path = "/") (hmethod : req.method = "GET") :
    statusOf (full_dispatch env req) = some 202 ∧
    statusOf (full_dispatch env req) ≠ some 200 := by
  rw [dispatch_body env req hpath hmethod]
  exact ⟨rfl, by simp [statusOf]⟩

/-- Witness for C1 at a concrete GET request to the root path. -/
theorem get_root_returns_202_witness :
    statusOf (full_dispatch ⟨"app", "/root"⟩ ⟨"GET", "/", []⟩) = some 202 ∧
    statusOf (full_dispatch ⟨"app", "/root"⟩ ⟨"GET", "/", []⟩) ≠ some 200 :=
  get_root_returns_202 ⟨"app", "/root"⟩ ⟨"GET", "/", []⟩ rfl rfl

/-- C2: for every GET request to the root path whose Host header carries the
value h, the body embeds the literal text The host for this page is,
immediately followed by h, inside the h1 heading of the template. -/
theorem host_header_reflected_in_h1 (env : Env) (req : Request) (h : String)
    (hpath : req.path = "/") (hmethod : req.method = "GET")
    (hhost : headersGet req.headers "Host" = some h) :
    ∃ body, bodyOf (full_dispatch env req) = some body ∧
      strContains body ("<h1>The host for this page is " ++ h ++ "</h1>") := by
  rw [dispatch_body env req hpath hmethod, hhost]
  refine ⟨_, rfl, ?_⟩
  refine strContains_of_eq _ "" _
    ("\n            <h2>The name of this application is " ++ env.appName ++
      "</h2>\n            <h3>The path of this application on the user\x27s device is " ++
      abspath env.cwd env.cwd ++ "</h3>") ?_
  rw [show ("</h1>\n            <h2>The name of this application is " : String) =
      "</h1>" ++ "\n            <h2>The name of this application is " from rfl]
  simp only [pyStr, String.append_assoc, String.empty_append, String.append_empty]

/-- Witness for C2 at a concrete request with Host set to example.com. -/
theorem host_header_reflected_in_h1_witness :
    ∃ body,
      bodyOf (full_dispatch ⟨"app", "/root"⟩ ⟨"GET", "/", [("Host", "example.com")]⟩) =
        some body ∧
      strContains body ("<h1>The host for this page is " ++ "example.com" ++ "</h1>") :=
  host_header_reflected_in_h1 ⟨"app", "/root"⟩ ⟨"GET", "/", [("Host", "example.com")]⟩
    "example.com" rfl rfl (by decide)

/-- C3 counterexample: at a GET request to the root path with no Host header,
the rendered body does not place the closing h1 tag right after the host
prefix text, as an empty rendering would; instead the Python text None
appears there.  So the placeholder does not render as empty or absent. -/
theorem missing_host_counterexample :
    full_dispatch ⟨"app", "/root"⟩ ⟨"GET", "/", []⟩ = RouteResult.handled
      "<h1>The host for this page is None</h1>\n            <h2>The name of this application is app</h2>\n            <h3>The path of this application on the user\x27s device is /root</h3>"
      202 ∧
    ¬ strContains
      "<h1>The host for this page is None</h1>\n            <h2>The name of this application is app</h2>\n            <h3>The path of this application on the user\x27s device is /root</h3>"
      "The host for this page is </h1>" ∧
    strContains
      "<h1>The host for this page is None</h1>\n            <h2>The name of this application is app</h2>\n            <h3>The path of this application on the user\x27s device is /root</h3>"
      "The host for this page is None</h1>" := by
  refine ⟨by decide, by decide, by decide⟩

/-- C3 as amended: for every GET request to the root path lacking a Host
header, the handler still answers without failing, and the host placeholder
renders as the four-character Python text None rather than as empty text. -/
theorem missing_host_renders_None (env : Env) (req : Request)
    (hpath : req.path = "/") (hmethod : req.method = "GET")
    (hhost : headersGet req.headers "Host" = none) :
    full_dispatch env req ≠ RouteResult.failed ∧
    ∃ body, bodyOf (full_dispatch env req) = some body ∧
      strContains body "<h1>The host for this page is None</h1>" := by
  rw [dispatch_body env req hpath hmethod, hhost]
  refine ⟨by simp, _, rfl, ?_⟩
  refine strContains_of_eq _ "" _
    ("\n            <h2>The name of this application is " ++ env.appName ++
      "</h2>\n            <h3>The path of this application on the user\x27s device is " ++
      abspath env.cwd env.cwd ++ "</h3>") ?_
  rw [show ("<h1>The host for this page is None</h1>" : String) =
      "<h1>The host for this page is " ++ ("None" ++ "</h1>") from rfl,
    show ("</h1>\n            <h2>The name of this application is " : String) =
      "</h1>" ++ "\n            <h2>The name of this application is " from rfl]
  simp only [pyStr, String.append_assoc, String.empty_append, String.append_empty]

/-- Witness for the amended C3 at a concrete request with no headers. -/
theorem missing_host_renders_None_witness :
    full_dispatch ⟨"app", "/root"⟩ ⟨"GET", "/", []⟩ ≠ RouteResult.failed ∧
    ∃ body, bodyOf (full_dispatch ⟨"app", "/root"⟩ ⟨"GET", "/", []⟩) = some body ∧
      strContains body "<h1>The host for this page is None</h1>" :=
  missing_host_renders_None ⟨"app", "/root"⟩ ⟨"GET", "/", []⟩ rfl rfl rfl

/-- C4: for every GET request to the root path, when the current working
directory of the process at request time is a canonical absolute pathname as
getcwd guarantees, the h3 heading embeds exactly that request-time directory,
the value the per-request preparation step resolved. -/
theorem h3_renders_request_time_cwd (env : Env) (req : Request)
    (hpath : req.path = "/") (hmethod : req.method = "GET")
    (hcwd : CanonicalCwd env.cwd) :
    ∃ body, bodyOf (full_dispatch env req) = some body ∧
      strContains body
        ("<h3>The path of this application on the user\x27s device is " ++
          env.cwd ++ "</h3>") := by
  rw [dispatch_body env req hpath hmethod, abspath_cwd_id env.cwd hcwd]
  refine ⟨_, rfl, ?_⟩
  refine strContains_of_eq _
    ("<h1>The host for this page is " ++ pyStr (headersGet req.headers "Host") ++
      "</h1>\n            <h2>The name of this application is " ++ env.appName ++
      "</h2>\n            ") _ "" ?_
  rw [show ("</h2>\n            <h3>The path of this application on the user\x27s device is " : String) =
      "</h2>\n            " ++ "<h3>The path of this application on the user\x27s device is " from rfl]
  simp only [String.append_assoc, String.empty_append, String.append_empty]

/-- Witness for C4 at a concrete request with the process directory /root. -/
theorem h3_renders_request_time_cwd_witness :
    ∃ body, bodyOf (full_dispatch ⟨"app", "/root"⟩ ⟨"GET", "/", []⟩) = some body ∧
      strContains body
        ("<h3>The path of this application on the user\x27s device is " ++
          "/root" ++ "</h3>") :=
  h3_renders_request_time_cwd ⟨"app", "/root"⟩ ⟨"GET", "/", []⟩ rfl rfl canonicalCwd_root

/-- C5: for every GET request to the root path, whatever its headers or other
content, the h2 heading embeds exactly the fixed application name configured
at startup. -/
theorem h2_renders_fixed_app_name (env : Env) (req : Request)
    (hpath : req.path = "/") (hmethod : req.method = "GET") :
    ∃ body, bodyOf (full_dispatch env req) = some body ∧
      strContains body
        ("<h2>The name of this application is " ++ env.appName ++ "</h2>") := by
  rw [dispatch_body env req hpath hmethod]
  refine ⟨_, rfl, ?_⟩
  refine strContains_of_eq _
    ("<h1>The host for this page is " ++ pyStr (headersGet req.headers "Host") ++
      "</h1>\n            ") _
    ("\n            <h3>The path of this application on the user\x27s device is " ++
      abspath env.cwd env.cwd ++ "</h3>") ?_
  rw [show ("</h1>\n            <h2>The name of this application is " : String) =
      "</h1>\n            " ++ "<h2>The name of this application is " from rfl,
    show ("</h2>\n            <h3>The path of this application on the user\x27s device is " : String) =
      "</h2>" ++ "\n            <h3>The path of this application on the user\x27s device is " from rfl]
  simp only [String.append_assoc, String.empty_append, String.append_empty]

/-- Witness for C5 at a concrete request, with application name app. -/
theorem h2_renders_fixed_app_name_witness :
    ∃ body,
      bodyOf (full_dispatch ⟨"app", "/root"⟩ ⟨"GET", "/", [("Host", "x"), ("Y", "z")]⟩) =
        some body ∧
      strContains body ("<h2>The name of this application is " ++ "app" ++ "</h2>") :=
  h2_renders_fixed_app_name ⟨"app", "/root"⟩ ⟨"GET", "/", [("Host", "x"), ("Y", "z")]⟩ rfl rfl

/-- C6: for every inbound request, the before-request hook has attached the
resolved absolute working directory to the request-scoped bag before any
handler runs, and no dispatch ever fails from reading an unset path value;
the hook is part of the cycle for every request, whatever its path. -/
theorem hook_runs_before_every_request (env : Env) (req : Request) :
    (app_path env { path := none }).path = some (abspath env.cwd env.cwd) ∧
    full_dispatch env req ≠ RouteResult.failed := by
  refine ⟨rfl, ?_⟩
  unfold full_dispatch
  split
  · simp [app_path, index]
  · simp

/-- C7: a request whose path is not the root never reaches the view: routing
answers with the framework default and no template body is produced. -/
theorem non_root_paths_never_invoke_index (env : Env) (req : Request)
    (hpath : req.path ≠ "/") :
    full_dispatch env req = RouteResult.unmatched ∧
    bodyOf (full_dispatch env req) = none := by
  have hcond : ¬(req.path = "/" ∧ (req.method = "GET" ∨ req.method = "HEAD")) :=
    fun hc => hpath hc.1
  refine ⟨?_, ?_⟩ <;> simp [full_dispatch, hcond, bodyOf]

/-- Witness for C7 at a concrete request for a non-root path. -/
theorem non_root_paths_never_invoke_index_witness :
    full_dispatch ⟨"app", "/root"⟩ ⟨"GET", "/about", []⟩ = RouteResult.unmatched ∧
    bodyOf (full_dispatch ⟨"app", "/root"⟩ ⟨"GET", "/about", []⟩) = none :=
  non_root_paths_never_invoke_index ⟨"app", "/root"⟩ ⟨"GET", "/about", []⟩ (by decide)

/-- C8: the view is deterministic and reentrant: two invocations that agree
on the Host header value, the application name and the working directory
produce identical body and status pairs, whatever else differs. -/
theorem index_deterministic_reentrant (env env2 : Env) (req req2 : Request)
    (hname : env.appName = env2.appName) (hcwd : env.cwd = env2.cwd)
    (hhost : headersGet req.headers "Host" = headersGet req2.headers "Host") :
    index env req (app_path env { path := none }) =
      index env2 req2 (app_path env2 { path := none }) := by
  simp [index, app_path, hname, hcwd, hhost]

/-- Witness for C8 at two concrete invocations differing in method, header
layout and header-name case but agreeing on the three ambient inputs. -/
theorem index_deterministic_reentrant_witness :
    index ⟨"app", "/root"⟩ ⟨"GET", "/", [("Host", "example.com")]⟩
        (app_path ⟨"app", "/root"⟩ { path := none }) =
      index ⟨"app", "/root"⟩ ⟨"HEAD", "/", [("host", "example.com"), ("X", "y")]⟩
        (app_path ⟨"app", "/root"⟩ { path := none }) :=
  index_deterministic_reentrant ⟨"app", "/root"⟩ ⟨"app", "/root"⟩
    ⟨"GET", "/", [("Host", "example.com")]⟩
    ⟨"HEAD", "/", [("host", "example.com"), ("X", "y")]⟩ rfl rfl (by decide)

/-- C9: the view has no side effect beyond its response: it hands back the
ambient state unchanged, and its output depends on nothing but the Host
header value, the application name and the request-scoped path it reads. -/
theorem index_reads_only_no_mutation (c c2 : Ctx)
    (hhost : headersGet c.req.headers "Host" = headersGet c2.req.headers "Host")
    (hname : c.env.appName = c2.env.appName)
    (hpath : c.g.path = c2.g.path) :
    (indexCtx c).2 = c ∧ (indexCtx c).1 = (indexCtx c2).1 := by
  refine ⟨rfl, ?_⟩
  unfold indexCtx index
  rw [hhost, hname, hpath]

/-- Witness for C9 at two concrete states agreeing on the three read values. -/
theorem index_reads_only_no_mutation_witness :
    (indexCtx ⟨⟨"app", "/root"⟩, ⟨"GET", "/", [("Host", "example.com")]⟩, ⟨some "/root"⟩⟩).2 =
      ⟨⟨"app", "/root"⟩, ⟨"GET", "/", [("Host", "example.com")]⟩, ⟨some "/root"⟩⟩ ∧
    (indexCtx ⟨⟨"app", "/root"⟩, ⟨"GET", "/", [("Host", "example.com")]⟩, ⟨some "/root"⟩⟩).1 =
      (indexCtx ⟨⟨"app", "/x"⟩, ⟨"POST", "/y", [("host", "example.com"), ("Z", "w")]⟩,
        ⟨some "/root"⟩⟩).1 :=
  index_reads_only_no_mutation
    ⟨⟨"app", "/root"⟩, ⟨"GET", "/", [("Host", "example.com")]⟩, ⟨some "/root"⟩⟩
    ⟨⟨"app", "/x"⟩, ⟨"POST", "/y", [("host", "example.com"), ("Z", "w")]⟩, ⟨some "/root"⟩⟩
    (by decide) rfl rfl

/-- C10: the per-request path value the hook stores equals the current
working directory exactly: on the canonical absolute pathname getcwd
guarantees, the abspath normalization is the identity. -/
theorem abspath_of_getcwd_is_identity (env : Env) (g : G)
    (h : CanonicalCwd env.cwd) :
    (app_path env g).path = some env.cwd := by
  simp [app_path, abspath_cwd_id env.cwd h]

/-- Witness for C10 at the concrete canonical directory /root. -/
theorem abspath_of_getcwd_is_identity_witness :
    (app_path ⟨"app", "/root"⟩ { path := none }).path = some "/root" :=
  abspath_of_getcwd_is_identity ⟨"app", "/root"⟩ { path := none } canonicalCwd_root

end FlaskApp
